import Mathlib

/-!
Verification development for the sandbox execution subsystem
(`backend/core/sandbox/`): the Docker-backed adapter
(`adapters/docker_sandbox.py`), the provider factory (`factory.py`) and the
compatibility shim (`compat.py`).

The Python code is shallowly embedded: each operation becomes a pure Lean
function over an explicit engine/adapter state.  Calls into the external
container engine (docker client) are modelled by passing the engine's
response in as a parameter; exceptions are modelled with `Except`.
Byte strings are `List Nat` (each entry a byte value), strings of the
metadata/label machinery are `List Char` so that Python's `str.replace`
semantics can be modelled exactly.
-/

/-- Sandbox lifecycle states, from `adapter.py` (`class SandboxState`). -/
inductive SandboxState where
  | creating
  | started
  | stopped
  | archiving
  | archived
  | error
  deriving DecidableEq, Repr

/-- Result of a command execution, from `adapter.py` (`class ExecuteResult`). -/
structure ExecuteResult where
  exit_code : Int
  stdout : String
  stderr : String
  success : Bool
  error : Option String
  deriving DecidableEq, Repr

/-! ## Docker status mapping (`DockerSandboxAdapter.get_sandbox`, lines 177-186)

`status = container.status.lower()` followed by the if/elif chain. -/

/-- Python `str.lower()`, character by character (the status strings in
question are ASCII). -/
def strToLower (s : String) : String :=
  String.mk (s.data.map Char.toLower)

/-- The status-string-to-state mapping of `get_sandbox`
(docker_sandbox.py lines 177-186), including the initial `.lower()`. -/
def mapDockerStatus (status : String) : SandboxState :=
  let s := strToLower status
  if s = "running" then SandboxState.started
  else if s = "created" ∨ s = "restarting" then SandboxState.creating
  else if s = "paused" ∨ s = "exited" then SandboxState.stopped
  else SandboxState.error

/-! ## Command execution (`DockerSandboxAdapter.execute_command`, lines 293-365)

The docker exec call is offloaded to a worker and raced against
`asyncio.wait_for(..., timeout=timeout)`.  The outcome of that race is the
model's input:
  * `.ok ec so se` — `exec_run` returned with exit code `ec`, and the decoded
    stdout/stderr strings (the `demux=True` streams, `""` when the stream was
    `None`);
  * `.timeout` — the independent timer elapsed first (`asyncio.TimeoutError`);
  * `.exn msg` — any exception raised inside the outer `try` (engine transport
    error from `containers.get`/`exec_run`, unknown container, or a
    `bytes.decode` failure), carrying `str(e)`.
-/

inductive ExecOutcome where
  | ok (exitCode : Int) (stdout stderr : String)
  | timeout
  | exn (msg : String)
  deriving DecidableEq, Repr

/-- Python `timeout = timeout or self.DEFAULT_TIMEOUT` (line 305):
`None` and `0` both fall back to the 300-second default. -/
def effectiveTimeout (timeoutArg : Option Nat) : Nat :=
  match timeoutArg with
  | none => 300
  | some 0 => 300
  | some t => t

/-- `DockerSandboxAdapter.execute_command` (docker_sandbox.py lines 293-365).
`clientInit` is `self.client is not None`; an uninitialized client raises
(`.error`).  Otherwise every race outcome is converted into an
`ExecuteResult` and returned with `.ok`. -/
def execute_command (clientInit : Bool) (timeoutArg : Option Nat)
    (outcome : ExecOutcome) : Except String ExecuteResult :=
  if ¬ clientInit then Except.error "Docker client not initialized"
  else
    let t := effectiveTimeout timeoutArg
    match outcome with
    | ExecOutcome.ok ec so se =>
        Except.ok ⟨ec, so, se, ec == 0, none⟩
    | ExecOutcome.timeout =>
        Except.ok ⟨-1, "", s!"Command timeout after {t} seconds", false,
          some "Timeout"⟩
    | ExecOutcome.exn msg =>
        Except.ok ⟨-1, "", msg, false, some msg⟩

/-! ## Strings as char lists, Python `str.replace` -/

abbrev Str := List Char

/-- The scan of Python `str.replace(old, new)`: left to right, replace each
non-overlapping occurrence, never rescanning the replacement text.  Every
step consumes at least one character, so `fuel ≥ length` makes the fuel
irrelevant (the zero-fuel branch is unreachable then). -/
def replaceAllFuel (pat rep : Str) : Nat → Str → Str
  | 0, s => s
  | _ + 1, [] => []
  | fuel + 1, c :: rest =>
    if pat ≠ [] ∧ pat.isPrefixOf (c :: rest) then
      rep ++ replaceAllFuel pat rep fuel (rest.drop (pat.length - 1))
    else
      c :: replaceAllFuel pat rep fuel rest

/-- Python `str.replace(old, new)` (the `old = ""` case does not arise
here; this model only replaces non-empty patterns). -/
def replaceAll (pat rep s : Str) : Str :=
  replaceAllFuel pat rep s.length s

/-- `pat` occurs as a contiguous substring. -/
def occursIn (pat : Str) : Str → Bool
  | [] => pat.isEmpty
  | c :: r => pat.isPrefixOf (c :: r) || occursIn pat r

/-! ## Metadata labels (`create_sandbox` lines 117-136, `get_sandbox` lines 188-194) -/

/-- The reserved label namespace, `"kortix.meta."`. -/
def metaNs : Str := "kortix.meta.".data

/-- The labels `create_sandbox` always sets (docker_sandbox.py lines 117-120);
`tstr` stands for `str(time.time())`. -/
def baseLabels (tstr : Str) : List (Str × Str) :=
  [("kortix.sandbox".data, "true".data), ("kortix.created_at".data, tstr)]

/-- Metadata-to-labels encoding of `create_sandbox` (lines 133-136): each
pair `(key, value)` becomes the label `("kortix.meta." ++ key, str(value))`.
Values are modelled as strings, on which `str` is the identity. -/
def encodeMetaLabels (tstr : Str) (metadata : List (Str × Str)) :
    List (Str × Str) :=
  baseLabels tstr ++ metadata.map (fun kv => (metaNs ++ kv.1, kv.2))

/-- Labels-to-metadata decoding of `get_sandbox` (lines 188-194): keep the
labels whose key satisfies `key.startswith("kortix.meta.")` and map each to
`key.replace("kortix.meta.", "")` — Python `replace`, i.e. every occurrence
of the namespace string is removed, not only the leading one. -/
def decodeMetaLabels (labels : List (Str × Str)) : List (Str × Str) :=
  (labels.filter (fun kv => metaNs.isPrefixOf kv.1)).map
    (fun kv => (replaceAll metaNs [] kv.1, kv.2))

/-! ## Engine state and the lifecycle operations -/

/-- The engine-side view of one container: its live status string and its
labels.  (The filesystem part of a container is modelled separately for the
file-transfer claims.) -/
structure Container where
  status : String
  labels : List (Str × Str)
  deriving DecidableEq, Repr

/-- The engine's container table, keyed by container id. -/
abbrev Engine := List (String × Container)

/-- Sandbox information, from `adapter.py` (`class SandboxInfo`), restricted
to the fields the Docker adapter fills in. -/
structure SandboxInfo where
  sandbox_id : String
  state : SandboxState
  metadata : List (Str × Str)
  deriving DecidableEq, Repr

/-- `DockerSandboxAdapter.get_sandbox` (lines 164-207): look the container
up (docker NotFound becomes an error), map its status through the status
table and decode the metadata labels. -/
def get_sandbox (clientInit : Bool) (eng : Engine) (id : String) :
    Except String SandboxInfo :=
  if ¬ clientInit then Except.error "Docker client not initialized"
  else
    match eng.lookup id with
    | none => Except.error s!"Sandbox {id} not found"
    | some c =>
        Except.ok ⟨id, mapDockerStatus c.status, decodeMetaLabels c.labels⟩

/-- `DockerSandboxAdapter.create_sandbox` (lines 89-162), restricted to the
parts the claims are about: the engine assigns fresh id `newId`, the
container is created running with the base labels plus one
`kortix.meta.<key>` label per metadata entry, and the returned
`SandboxInfo` carries the caller's metadata unchanged. -/
def create_sandbox (clientInit : Bool) (eng : Engine) (newId : String)
    (tstr : Str) (metadata : List (Str × Str)) :
    Except String (Engine × SandboxInfo) :=
  if ¬ clientInit then Except.error "Docker client not initialized"
  else
    Except.ok ((newId, ⟨"running", encodeMetaLabels tstr metadata⟩) :: eng,
      ⟨newId, SandboxState.started, metadata⟩)

/-- Removing a container from the engine table. -/
def removeContainer (eng : Engine) (id : String) : Engine :=
  eng.filter (fun kv => kv.1 != id)

/-- `DockerSandboxAdapter.delete_sandbox` (lines 259-291): look the
container up, stop it when running, remove it with force; when the engine
reports the container as not found (`docker.errors.NotFound`) the exception
is caught, a warning is logged, and the call returns successfully. -/
def delete_sandbox (clientInit : Bool) (eng : Engine) (id : String) :
    Except String Engine :=
  if ¬ clientInit then Except.error "Docker client not initialized"
  else
    match eng.lookup id with
    | none => Except.ok eng
    | some _ => Except.ok (removeContainer eng id)

/-! ## Archive-based file transfer (`write_file` lines 367-412, `read_file` lines 414-452)

`write_file` packs the content into a single-entry tar archive with
`tarfile` and streams it to the engine's copy-in primitive; `read_file`
fetches an archive from the engine's copy-out primitive and returns the
first member's payload.  The tar wire format is modelled at the byte level
(ustar-style 512-byte header, payload padded to a block, end-of-archive
blocks); file contents are `List Nat` byte values and paths are keyed by
their byte sequences. -/

/-- Byte view of an (ASCII) name or path string. -/
def strBytes (s : String) : List Nat := s.data.map Char.toNat

/-- A field of fixed width `n`: truncate or zero-pad on the right. -/
def padTo (n : Nat) (l : List Nat) : List Nat :=
  l.take n ++ List.replicate (n - l.length) 0

/-- `w` ASCII octal digits of `n`, most significant first (tarfile's
`itn`-style numeric field, without the trailing terminator byte). -/
def octFixed : Nat → Nat → List Nat
  | 0, _ => []
  | w + 1, n => octFixed w (n / 8) ++ [48 + n % 8]

/-- Reading an ASCII octal numeric field (tarfile's `nti`). -/
def parseOct (l : List Nat) : Nat :=
  l.foldl (fun acc d => acc * 8 + (d - 48)) 0

/-- Header bytes before the checksum field: name (100), mode (8), uid (8),
gid (8), size (12), mtime (12) — offsets 0..147. -/
def headerPre (name : String) (mode mtime size : Nat) : List Nat :=
  padTo 100 (strBytes name) ++
  (octFixed 7 mode ++ [0]) ++
  (octFixed 7 0 ++ [0]) ++
  (octFixed 7 0 ++ [0]) ++
  (octFixed 11 size ++ [0]) ++
  (octFixed 11 mtime ++ [0])

/-- Header bytes after the checksum field: typeflag `'0'` then the unused
tail of the 512-byte block (offsets 156..511). -/
def headerPost : List Nat := 48 :: List.replicate 355 0

/-- The header checksum: the byte sum of the header with the checksum
field taken as eight spaces. -/
def chksumOf (pre : List Nat) : Nat :=
  (pre ++ List.replicate 8 32 ++ headerPost).sum

/-- A tar header block for one regular file. -/
def mkHeader (name : String) (mode mtime size : Nat) : List Nat :=
  let pre := headerPre name mode mtime size
  pre ++ (octFixed 6 (chksumOf pre) ++ [0, 32]) ++ headerPost

/-- The archive `write_file` builds (lines 386-399): one `TarInfo` entry
named `os.path.basename(path)` with `size = len(content)`, the payload
padded to a 512-byte block, and the end-of-archive zero blocks written on
close. -/
def mkTarSingle (name : String) (mode mtime : Nat) (content : List Nat) :
    List Nat :=
  mkHeader name mode mtime content.length ++
  padTo (512 * ((content.length + 511) / 512)) content ++
  List.replicate 1024 0

/-- The read side (lines 437-446): `tarfile.open` on the fetched bytes,
`next()` for the first member, `extractfile(member).read()` for its
payload.  Returns the member's name bytes and payload; `none` models the
no-member case (empty or terminated archive). -/
def tarFirstEntry (data : List Nat) : Option (List Nat × List Nat) :=
  if data.length < 512 then none
  else if (data.take 512).all (fun b => b == 0) then none
  else
    let name := (data.take 100).takeWhile (fun b => b != 0)
    let size := parseOct ((data.drop 124).take 11)
    some (name, (data.drop 512).take size)

/-- `os.path.basename` (posixpath): everything after the last slash. -/
def pyBasename (p : String) : String :=
  String.mk ((p.data.reverse.takeWhile (fun c => c != '/')).reverse)

/-- `os.path.dirname` (posixpath): everything up to and including the last
slash; when that is nonempty and not all slashes, trailing slashes are
stripped. -/
def pyDirname (p : String) : String :=
  let head := (p.data.reverse.dropWhile (fun c => c != '/')).reverse
  if head ≠ [] ∧ ¬ (head.all (fun c => c == '/')) then
    String.mk ((head.reverse.dropWhile (fun c => c == '/')).reverse)
  else String.mk head

/-- A container filesystem: file path (as bytes) → file bytes. -/
abbrev ContainerFs := List (List Nat × List Nat)

/-- Modelled from the spec: the engine's copy-in primitive
(`container.put_archive(dest_dir, tar_data)`, docker_sandbox.py line 405;
the docker daemon side is not part of this repository).  Per spec §4.2 the
archive is the byte-exact transport across the isolation boundary: the
daemon unpacks the archive and materializes each entry under `dest_dir`.
For the single-entry archives this adapter builds, the entry's payload is
stored at `dest_dir ++ "/" ++ name`. -/
def enginePutArchive (fs : ContainerFs) (destDir : String) (data : List Nat) :
    ContainerFs :=
  match tarFirstEntry data with
  | some (name, content) => (strBytes destDir ++ 47 :: name, content) :: fs
  | none => fs

/-- Modelled from the spec: the engine's copy-out primitive
(`container.get_archive(path)`, line 434; daemon side not in this
repository).  The daemon packages the file at `path` as a single-entry tar
archive named after the file; a missing path is a NotFound failure. -/
def engineGetArchive (fs : ContainerFs) (path : String) : Option (List Nat) :=
  (fs.lookup (strBytes path)).map
    (fun content => mkTarSingle (pyBasename path) 420 0 content)

/-- `DockerSandboxAdapter.write_file` (lines 367-412): build the
single-entry archive and stream it to `os.path.dirname(path) or "/"`. -/
def write_file (clientInit : Bool) (fs : ContainerFs) (path : String)
    (content : List Nat) (mode mtime : Nat) : Except String ContainerFs :=
  if ¬ clientInit then Except.error "Docker client not initialized"
  else
    let tarData := mkTarSingle (pyBasename path) mode mtime content
    let destDir := if pyDirname path = "" then "/" else pyDirname path
    Except.ok (enginePutArchive fs destDir tarData)

/-- `DockerSandboxAdapter.read_file` (lines 414-452): fetch the archive for
`path` (a missing path is the engine's NotFound, re-raised), take the first
member and return its payload; no member means `FileNotFoundError`. -/
def read_file (clientInit : Bool) (fs : ContainerFs) (path : String) :
    Except String (List Nat) :=
  if ¬ clientInit then Except.error "Docker client not initialized"
  else
    match engineGetArchive fs path with
    | none => Except.error s!"File not found: {path}"
    | some data =>
        match tarFirstEntry data with
        | some entry => Except.ok entry.2
        | none => Except.error s!"File not found: {path}"

/-! ## Factory (`factory.py` lines 24-158) -/

/-- The provider enum from `adapter.py` (`class SandboxProvider`). -/
inductive SandboxProvider where
  | docker
  | e2b
  | daytona
  deriving DecidableEq, Repr

/-- The construction-relevant state of `DockerSandboxAdapter`: `client` is
`self.client is not None`.  `__init__` (docker_sandbox.py lines 52-87)
sets `client = None` when the engine ping fails. -/
structure DockerAdapter where
  client : Bool
  deriving DecidableEq, Repr

/-- `DockerSandboxAdapter.is_configured` (lines 567-569). -/
def is_configured (a : DockerAdapter) : Bool := a.client

/-- `SandboxFactory` state: the detected provider and the `_adapter`
cache (initially `None`). -/
structure Factory where
  provider : SandboxProvider
  adapter : Option DockerAdapter
  deriving DecidableEq, Repr

/-- `SandboxFactory.get_adapter` (factory.py lines 91-119).
`engineReachable` stands for whether the docker ping in the adapter's
`__init__` succeeds.  Returns the call's outcome together with the factory
state after the call.  Mirrors the source exactly: a cached `_adapter` is
returned unconditionally, and on the construction path `self._adapter` is
assigned *before* the `is_configured()` validation, so the cache survives
a validation failure.  The E2B/Daytona constructors raise
NotImplementedError before any assignment. -/
def get_adapter (engineReachable : Bool) (f : Factory) :
    Except String DockerAdapter × Factory :=
  match f.adapter with
  | some a => (Except.ok a, f)
  | none =>
    match f.provider with
    | SandboxProvider.docker =>
        let a : DockerAdapter := ⟨engineReachable⟩
        let f2 : Factory := { f with adapter := some a }
        if ¬ is_configured a then
          (Except.error "Sandbox provider is not properly configured", f2)
        else (Except.ok a, f2)
    | SandboxProvider.e2b =>
        (Except.error "E2B adapter not yet implemented", f)
    | SandboxProvider.daytona =>
        (Except.error "Daytona adapter not implemented", f)

/-! ## Compatibility shim (`compat.py`) -/

/-- `CompatSandbox` (compat.py lines 33-58): sandbox id, metadata and the
`_state` cache, which `__init__` sets to `None`. -/
structure CompatSandbox where
  sandbox_id : String
  metadata : List (Str × Str)
  cachedState : Option SandboxState
  deriving DecidableEq, Repr

/-- `CompatSandbox.get_state` (compat.py lines 48-53): return the cached
`_state` when present; otherwise query the adapter once and cache what it
reports.  `live` is the state the adapter's `get_sandbox` reports at call
time; the returned `Bool` records whether the adapter was queried. -/
def get_state (live : SandboxState) (cs : CompatSandbox) :
    SandboxState × CompatSandbox × Bool :=
  match cs.cachedState with
  | some s => (s, cs, false)
  | none => (live, { cs with cachedState := some live }, true)

/-- The synchronous `state` property (compat.py lines 55-58): just the
cached value, possibly stale, `None` before any fetch. -/
def stateProperty (cs : CompatSandbox) : Option SandboxState :=
  cs.cachedState

/-- The polling loop of `get_or_start_sandbox` (compat.py lines 182-186):
up to `fuel` iterations; each iteration sleeps one second, polls
`get_sandbox` (the `k`-th poll observes `states (idx + k)`), and breaks as
soon as the observed state is STARTED.  Returns the final value of the
loop's `info` state together with the number of polls performed. -/
def pollRun (states : Nat → SandboxState) (idx fuel : Nat)
    (last : SandboxState) : SandboxState × Nat :=
  match fuel with
  | 0 => (last, 0)
  | f + 1 =>
      let s := states idx
      if s = SandboxState.started then (s, 1)
      else
        let r := pollRun states (idx + 1) f s
        (r.1, r.2 + 1)

/-- The orchestration core of `get_or_start_sandbox` (compat.py lines
153-195): fetch the current state; when it is STOPPED or ARCHIVED, issue a
start and poll at a fixed 1-second interval for at most 30 attempts.  The
helper returns (rather than raising) whatever state the loop last
observed; the second component counts the polls. -/
def get_or_start_sandbox (initial : SandboxState)
    (states : Nat → SandboxState) : SandboxState × Nat :=
  if initial = SandboxState.stopped ∨ initial = SandboxState.archived then
    pollRun states 0 30 initial
  else (initial, 0)

/-! ## Resource usage (`get_resource_usage`, lines 519-561) -/

/-- The fields of the docker stats sample that `get_resource_usage` reads
(lines 541-550): the two consecutive cpu/system counter samples and the
memory usage/limit, modelled over ℚ. -/
structure DockerStats where
  cpuTotal : ℚ
  precpuTotal : ℚ
  systemTotal : ℚ
  presystemTotal : ℚ
  memUsage : ℚ
  memLimit : ℚ
  deriving DecidableEq, Repr

/-- Python `round(x, 2)` over the exact rationals: the nearest multiple of
1/100.  (Binary-float tie behavior at exact half-cent boundaries is not
modelled; the claims only use bounds, which are insensitive to it.) -/
def round2 (x : ℚ) : ℚ := ((round (x * 100) : ℤ) : ℚ) / 100

/-- `DockerSandboxAdapter.get_resource_usage` (lines 519-561).  `sample` is
the outcome of the container lookup and stats fetch: `none` models any
exception inside the `try`, which the source turns into an empty dict.
The only raise is the uninitialized-client check before the `try`. -/
def get_resource_usage (clientInit : Bool) (sample : Option DockerStats) :
    Except String (List (String × ℚ)) :=
  if ¬ clientInit then Except.error "Docker client not initialized"
  else
    match sample with
    | none => Except.ok []
    | some st =>
        let cpuDelta := st.cpuTotal - st.precpuTotal
        let systemDelta := st.systemTotal - st.presystemTotal
        let cpuPercent :=
          if systemDelta > 0 then cpuDelta / systemDelta * 100 else 0
        let memPercent :=
          if st.memLimit > 0 then st.memUsage / st.memLimit * 100 else 0
        Except.ok [("cpu_percent", round2 cpuPercent),
                   ("memory_bytes", st.memUsage),
                   ("memory_limit_bytes", st.memLimit),
                   ("memory_percent", round2 memPercent)]

/-! ## Theorems -/

/-- C1: on an initialized adapter, when the independent timer elapses
before the offloaded execution completes (`asyncio.TimeoutError` wins the
`asyncio.wait_for` race), `execute_command` returns an `ExecuteResult`
with `exit_code = -1`, `success = false` and the non-empty error field
`"Timeout"`, computed directly from the timeout branch without consulting
the underlying process any further. -/
theorem C1_execute_timeout (timeoutArg : Option Nat) (clientInit : Bool)
    (h : clientInit = true) :
    ∃ r, execute_command clientInit timeoutArg ExecOutcome.timeout =
        Except.ok r ∧
      r.exit_code = -1 ∧ r.success = false ∧ r.error = some "Timeout" ∧
      "Timeout" ≠ "" := by
  subst h
  exact ⟨_, rfl, rfl, rfl, rfl, by decide⟩

/-- Witness for C1 at a concrete 5-second timeout. -/
theorem C1_execute_timeout_witness :
    ∃ r, execute_command true (some 5) ExecOutcome.timeout = Except.ok r ∧
      r.exit_code = -1 ∧ r.success = false ∧ r.error = some "Timeout" ∧
      "Timeout" ≠ "" :=
  C1_execute_timeout (some 5) true rfl

/-- C9: on an initialized adapter `execute_command` never raises: every
race outcome yields an `Except.ok` result, and an internal failure other
than a timeout (engine transport error, unknown container, decoding
failure — all modelled as `ExecOutcome.exn (str e)`) is converted into an
`ExecuteResult` with `exit_code = -1`, `success = false` and
`error = str(e)`, which is non-empty whenever `str(e)` is. -/
theorem C9_execute_no_raise (timeoutArg : Option Nat) (oc : ExecOutcome) :
    (∃ r, execute_command true timeoutArg oc = Except.ok r) ∧
    (∀ msg, oc = ExecOutcome.exn msg →
      execute_command true timeoutArg oc =
        Except.ok ⟨-1, "", msg, false, some msg⟩) := by
  constructor
  · cases oc <;> exact ⟨_, rfl⟩
  · intro msg hm
    subst hm
    rfl

/-- Witness for C9 at a concrete transport failure. -/
theorem C9_execute_no_raise_witness :
    (∃ r, execute_command true none (ExecOutcome.exn "connection refused") =
      Except.ok r) ∧
    execute_command true none (ExecOutcome.exn "connection refused") =
      Except.ok ⟨-1, "", "connection refused", false,
        some "connection refused"⟩ :=
  ⟨(C9_execute_no_raise none (ExecOutcome.exn "connection refused")).1,
   (C9_execute_no_raise none (ExecOutcome.exn "connection refused")).2
     "connection refused" rfl⟩

/-- After removing a container id, looking it up fails. -/
theorem lookup_removeContainer (eng : Engine) (id : String) :
    (removeContainer eng id).lookup id = none := by
  induction eng with
  | nil => rfl
  | cons kv t ih =>
      show (List.filter _ (kv :: t)).lookup id = none
      rw [List.filter_cons]
      by_cases h : kv.1 = id
      · simp only [h, bne_self_eq_false, Bool.false_eq_true, if_false]
        exact ih
      · rw [if_pos (by simpa [bne_iff_ne] using h)]
        have hbeq : (id == kv.1) = false := beq_eq_false_iff_ne.mpr (Ne.symm h)
        rw [show kv = (kv.1, kv.2) from rfl, List.lookup_cons, hbeq]
        exact ih

/-- C4: `delete_sandbox` is idempotent on an initialized adapter: when the
engine reports the container as already gone the call returns successfully
(after a logged warning), the first call always returns successfully, and
a second call on the resulting engine state never raises. -/
theorem C4_delete_idempotent (eng : Engine) (id : String) :
    (eng.lookup id = none → delete_sandbox true eng id = Except.ok eng) ∧
    (∃ eng2, delete_sandbox true eng id = Except.ok eng2 ∧
      delete_sandbox true eng2 id = Except.ok eng2) := by
  constructor
  · intro h
    simp [delete_sandbox, h]
  · match he : eng.lookup id with
    | none => exact ⟨eng, by simp [delete_sandbox, he], by simp [delete_sandbox, he]⟩
    | some c =>
        refine ⟨removeContainer eng id, by simp [delete_sandbox, he], ?_⟩
        simp [delete_sandbox, lookup_removeContainer]

/-- Witness for C4: deleting twice on a one-container engine. -/
theorem C4_delete_idempotent_witness :
    ([] : Engine).lookup "c1" = none ∧
    delete_sandbox true ([] : Engine) "c1" = Except.ok [] ∧
    ∃ eng2,
      delete_sandbox true [("c1", ⟨"running", []⟩)] "c1" = Except.ok eng2 ∧
      delete_sandbox true eng2 "c1" = Except.ok eng2 :=
  ⟨rfl, (C4_delete_idempotent [] "c1").1 rfl,
   (C4_delete_idempotent [("c1", ⟨"running", []⟩)] "c1").2⟩

/-- C5: `get_sandbox` maps the engine's live status exactly as
running→STARTED, created/restarting→CREATING, paused/exited→STOPPED, and
any other engine status string (engine status strings are lowercase, which
the source additionally enforces with `.lower()`) →ERROR; and the state
`get_sandbox` reports is precisely this mapping of the container's live
status. -/
theorem C5_status_mapping (s : String) (hlc : strToLower s = s) :
    (mapDockerStatus "running" = SandboxState.started ∧
     mapDockerStatus "created" = SandboxState.creating ∧
     mapDockerStatus "restarting" = SandboxState.creating ∧
     mapDockerStatus "paused" = SandboxState.stopped ∧
     mapDockerStatus "exited" = SandboxState.stopped) ∧
    (s ≠ "running" → s ≠ "created" → s ≠ "restarting" → s ≠ "paused" →
      s ≠ "exited" → mapDockerStatus s = SandboxState.error) ∧
    (∀ (eng : Engine) (id : String) (c : Container), eng.lookup id = some c →
      get_sandbox true eng id =
        Except.ok ⟨id, mapDockerStatus c.status, decodeMetaLabels c.labels⟩) := by
  refine ⟨⟨by decide, by decide, by decide, by decide, by decide⟩, ?_, ?_⟩
  · intro h1 h2 h3 h4 h5
    simp only [mapDockerStatus, hlc]
    rw [if_neg h1, if_neg (fun h => h.elim h2 h3), if_neg (fun h => h.elim h4 h5)]
  · intro eng id c hc
    simp [get_sandbox, hc]

/-- Witness for C5 at the engine status `"dead"`. -/
theorem C5_status_mapping_witness :
    mapDockerStatus "dead" = SandboxState.error ∧
    get_sandbox true [("c1", ⟨"dead", []⟩)] "c1" =
      Except.ok ⟨"c1", mapDockerStatus "dead", decodeMetaLabels []⟩ :=
  ⟨(C5_status_mapping "dead" (by decide)).2.1 (by decide) (by decide)
      (by decide) (by decide) (by decide),
   (C5_status_mapping "dead" (by decide)).2.2 [("c1", ⟨"dead", []⟩)] "c1"
      ⟨"dead", []⟩ rfl⟩

/-- C3 (bug exhibit): with the Docker provider selected and the engine
unreachable, the first `get_adapter` call raises but caches the
unconfigured adapter (the source assigns `self._adapter` before
validating), so the repeated call returns an adapter whose
`is_configured()` is false instead of raising — contradicting the claim
and the factory's own documented contract of returning a configured
adapter. -/
theorem C3_factory_returns_unconfigured :
    (∃ e, (get_adapter false ⟨SandboxProvider.docker, none⟩).1 =
      Except.error e) ∧
    (get_adapter false
        (get_adapter false ⟨SandboxProvider.docker, none⟩).2).1 =
      Except.ok ⟨false⟩ ∧
    is_configured ⟨false⟩ = false :=
  ⟨⟨_, rfl⟩, rfl, rfl⟩

/-- C10: once `CompatSandbox.get_state` has cached a state, every later
`get_state` call returns that cached value without querying the adapter
(third component `false`) and leaves the handle unchanged, regardless of
the live engine state; the synchronous `state` property returns only the
cached value (`none` before any fetch), and the cache is set after the
first fetch and never refreshed. -/
theorem C10_state_cache (live1 live2 : SandboxState) :
    (∀ (cs : CompatSandbox) (s : SandboxState), cs.cachedState = some s →
       get_state live1 cs = (s, cs, false) ∧ stateProperty cs = some s) ∧
    (∀ cs : CompatSandbox, cs.cachedState = none →
       stateProperty cs = none ∧
       get_state live2 (get_state live1 cs).2.1 =
         (live1, (get_state live1 cs).2.1, false) ∧
       stateProperty (get_state live1 cs).2.1 = some live1) := by
  constructor
  · intro cs s h
    exact ⟨by simp [get_state, h], by simp [stateProperty, h]⟩
  · intro cs h
    refine ⟨by simp [stateProperty, h], ?_, ?_⟩
    · simp [get_state, h]
    · simp [get_state, stateProperty, h]

/-- Witness for C10 on a fresh handle: the first fetch caches `STOPPED`
and the second call returns it even though the live state moved to
`STARTED`. -/
theorem C10_state_cache_witness :
    stateProperty ⟨"c1", [], none⟩ = none ∧
    get_state SandboxState.started
        (get_state SandboxState.stopped ⟨"c1", [], none⟩).2.1 =
      (SandboxState.stopped,
        (get_state SandboxState.stopped ⟨"c1", [], none⟩).2.1, false) ∧
    stateProperty (get_state SandboxState.stopped ⟨"c1", [], none⟩).2.1 =
      some SandboxState.stopped :=
  (C10_state_cache SandboxState.stopped SandboxState.started).2
    ⟨"c1", [], none⟩ rfl

/-- When no poll within the fuel observes STARTED, the loop runs to the
bound and keeps the last observation. -/
theorem pollRun_none_started (states : Nat → SandboxState) (fuel : Nat) :
    ∀ (idx : Nat) (last : SandboxState),
      (∀ i, i < fuel → states (idx + i) ≠ SandboxState.started) →
      pollRun states idx fuel last =
        (if fuel = 0 then last else states (idx + (fuel - 1)), fuel) := by
  induction fuel with
  | zero => intro idx last _; rfl
  | succ f ih =>
      intro idx last h
      have h0 : states idx ≠ SandboxState.started := by
        simpa using h 0 (Nat.succ_pos f)
      have hrec := ih (idx + 1) (states idx)
        (fun i hi => by
          have := h (i + 1) (Nat.succ_lt_succ hi)
          simpa [Nat.add_assoc, Nat.add_comm 1 i] using this)
      simp only [pollRun, if_neg h0, hrec]
      rcases Nat.eq_zero_or_pos f with hf | hf
      · subst hf; simp
      · have hne : f ≠ 0 := Nat.pos_iff_ne_zero.mp hf
        have harg : idx + 1 + (f - 1) = idx + (f + 1 - 1) := by omega
        simp [hne, harg]

/-- The loop breaks at the first STARTED observation. -/
theorem pollRun_first_started (states : Nat → SandboxState) (fuel : Nat) :
    ∀ (idx : Nat) (last : SandboxState) (k : Nat), k < fuel →
      states (idx + k) = SandboxState.started →
      (∀ i, i < k → states (idx + i) ≠ SandboxState.started) →
      pollRun states idx fuel last = (SandboxState.started, k + 1) := by
  induction fuel with
  | zero => intro idx last k hk; omega
  | succ f ih =>
      intro idx last k hk hs hb
      match k with
      | 0 =>
          have h0 : states idx = SandboxState.started := by simpa using hs
          simp [pollRun, h0]
      | j + 1 =>
          have h0 : states idx ≠ SandboxState.started := by
            simpa using hb 0 (Nat.succ_pos j)
          have hrec := ih (idx + 1) (states idx) j (by omega)
            (by simpa [Nat.add_assoc, Nat.add_comm 1 j] using hs)
            (fun i hi => by
              have := hb (i + 1) (Nat.succ_lt_succ hi)
              simpa [Nat.add_assoc, Nat.add_comm 1 i] using this)
          simp [pollRun, if_neg h0, hrec]

/-- The loop performs at most `fuel` polls. -/
theorem pollRun_attempts_le (states : Nat → SandboxState) (fuel : Nat) :
    ∀ (idx : Nat) (last : SandboxState),
      (pollRun states idx fuel last).2 ≤ fuel := by
  induction fuel with
  | zero => intro idx last; exact Nat.le_refl 0
  | succ f ih =>
      intro idx last
      by_cases h : states idx = SandboxState.started
      · simp [pollRun, h]
      · simp only [pollRun, if_neg h]
        exact Nat.succ_le_succ (ih (idx + 1) (states idx))

/-- C8: `get_or_start_sandbox` polls only when the fetched state is
STOPPED or ARCHIVED; it then polls `get_sandbox` for at most 30 attempts
(at the fixed 1-second interval), returns as soon as a poll observes
STARTED (after exactly `k+1` polls when poll `k` is the first to observe
it), and when no poll within the bound observes STARTED it still returns
normally, carrying the last observed state. -/
theorem C8_get_or_start (initial : SandboxState)
    (states : Nat → SandboxState) :
    (initial ≠ SandboxState.stopped → initial ≠ SandboxState.archived →
       get_or_start_sandbox initial states = (initial, 0)) ∧
    ((initial = SandboxState.stopped ∨ initial = SandboxState.archived) →
       (get_or_start_sandbox initial states).2 ≤ 30 ∧
       (∀ k, k < 30 → states k = SandboxState.started →
          (∀ i, i < k → states i ≠ SandboxState.started) →
          get_or_start_sandbox initial states =
            (SandboxState.started, k + 1)) ∧
       ((∀ i, i < 30 → states i ≠ SandboxState.started) →
          get_or_start_sandbox initial states = (states 29, 30))) := by
  constructor
  · intro h1 h2
    simp [get_or_start_sandbox, h1, h2]
  · intro hin
    have hcond :
        get_or_start_sandbox initial states = pollRun states 0 30 initial := by
      rcases hin with h | h <;> simp [get_or_start_sandbox, h]
    refine ⟨?_, ?_, ?_⟩
    · rw [hcond]; exact pollRun_attempts_le states 30 0 initial
    · intro k hk hs hb
      rw [hcond]
      exact pollRun_first_started states 30 0 initial k hk
        (by simpa using hs) (fun i hi => by simpa using hb i hi)
    · intro hall
      rw [hcond]
      have := pollRun_none_started states 30 0 initial
        (fun i hi => by simpa using hall i hi)
      simpa using this

/-- Witness for C8: from STOPPED, with STARTED first observed on poll 5,
the helper returns STARTED after 6 polls; and a non-stopped initial state
skips polling. -/
theorem C8_get_or_start_witness :
    get_or_start_sandbox SandboxState.stopped
        (fun i => if i = 5 then SandboxState.started
                  else SandboxState.creating) =
      (SandboxState.started, 6) ∧
    get_or_start_sandbox SandboxState.started
        (fun _ => SandboxState.creating) =
      (SandboxState.started, 0) :=
  ⟨((C8_get_or_start SandboxState.stopped _).2 (Or.inl rfl)).2.1 5
      (by decide) (by decide) (fun i hi => by
        interval_cases i <;> decide),
   (C8_get_or_start SandboxState.started _).1 (by decide) (by decide)⟩

/-- Rounding to two decimals keeps a value inside `[0, 100]`. -/
theorem round2_mem_Icc (x : ℚ) (h0 : 0 ≤ x) (h1 : x ≤ 100) :
    0 ≤ round2 x ∧ round2 x ≤ 100 := by
  have habs : |x * 100 - round (x * 100)| ≤ 1 / 2 := abs_sub_round (x * 100)
  rw [abs_le] at habs
  have hlo : (-(1 : ℚ) / 2) ≤ ((round (x * 100) : ℤ) : ℚ) := by
    nlinarith [habs.1, habs.2]
  have hhi : ((round (x * 100) : ℤ) : ℚ) ≤ 10000 + 1 / 2 := by
    nlinarith [habs.1, habs.2]
  have hlo2 : (0 : ℤ) ≤ round (x * 100) := by
    by_contra hc
    push_neg at hc
    have hc1 : round (x * 100) ≤ -1 := by omega
    have : ((round (x * 100) : ℤ) : ℚ) ≤ -1 := by exact_mod_cast hc1
    linarith
  have hhi2 : round (x * 100) ≤ (10000 : ℤ) := by
    by_contra hc
    push_neg at hc
    have : (10001 : ℚ) ≤ ((round (x * 100) : ℤ) : ℚ) := by exact_mod_cast hc
    linarith
  constructor
  · unfold round2
    positivity
  · unfold round2
    rw [div_le_iff₀ (by norm_num : (0 : ℚ) < 100)]
    calc ((round (x * 100) : ℤ) : ℚ) ≤ 10000 := by exact_mod_cast hhi2
    _ = 100 * 100 := by norm_num

/-- C7: on an initialized adapter, `get_resource_usage` either returns the
empty map (any failure while fetching the stats sample) or returns values
with `cpu_percent = cpu_delta / system_delta × 100` and
`memory_percent = usage / limit × 100` both inside `[0, 100]`, given the
engine's sanity guarantees on consecutive samples (counters are monotone,
the container's cpu delta is bounded by the system delta, and memory usage
is bounded by the limit); the values are never negative or unbounded. -/
theorem C7_resource_bounds (st : DockerStats)
    (h1 : st.precpuTotal ≤ st.cpuTotal)
    (h2 : st.cpuTotal - st.precpuTotal ≤ st.systemTotal - st.presystemTotal)
    (h3 : 0 ≤ st.memUsage) (h4 : st.memUsage ≤ st.memLimit) :
    (get_resource_usage true none = Except.ok []) ∧
    ∃ cp mp, get_resource_usage true (some st) =
        Except.ok [("cpu_percent", cp), ("memory_bytes", st.memUsage),
                   ("memory_limit_bytes", st.memLimit),
                   ("memory_percent", mp)] ∧
      0 ≤ cp ∧ cp ≤ 100 ∧ 0 ≤ mp ∧ mp ≤ 100 := by
  refine ⟨rfl, _, _, rfl, ?_⟩
  have hcpu : 0 ≤ (if st.systemTotal - st.presystemTotal > 0 then
      (st.cpuTotal - st.precpuTotal) / (st.systemTotal - st.presystemTotal) * 100
      else 0) ∧
      (if st.systemTotal - st.presystemTotal > 0 then
      (st.cpuTotal - st.precpuTotal) / (st.systemTotal - st.presystemTotal) * 100
      else 0) ≤ 100 := by
    split
    case isTrue hpos =>
      constructor
      · have := div_nonneg (by linarith : (0:ℚ) ≤ st.cpuTotal - st.precpuTotal)
          (le_of_lt hpos)
        linarith
      · have hle : (st.cpuTotal - st.precpuTotal) /
            (st.systemTotal - st.presystemTotal) ≤ 1 :=
          (div_le_one hpos).mpr h2
        linarith
    case isFalse _ => norm_num
  have hmem : 0 ≤ (if st.memLimit > 0 then st.memUsage / st.memLimit * 100
      else 0) ∧
      (if st.memLimit > 0 then st.memUsage / st.memLimit * 100 else 0) ≤
        100 := by
    split
    case isTrue hpos =>
      constructor
      · have := div_nonneg h3 (le_of_lt hpos)
        linarith
      · have hle : st.memUsage / st.memLimit ≤ 1 := (div_le_one hpos).mpr h4
        linarith
    case isFalse _ => norm_num
  have rc := round2_mem_Icc _ hcpu.1 hcpu.2
  have rm := round2_mem_Icc _ hmem.1 hmem.2
  exact ⟨rc.1, rc.2, rm.1, rm.2⟩

/-- Witness for C7 at a concrete stats sample. -/
theorem C7_resource_bounds_witness :
    get_resource_usage true none = Except.ok [] ∧
    ∃ cp mp, get_resource_usage true (some ⟨100, 40, 1000, 800, 256, 512⟩) =
        Except.ok [("cpu_percent", cp), ("memory_bytes", 256),
                   ("memory_limit_bytes", 512), ("memory_percent", mp)] ∧
      0 ≤ cp ∧ cp ≤ 100 ∧ 0 ≤ mp ∧ mp ≤ 100 :=
  C7_resource_bounds ⟨100, 40, 1000, 800, 256, 512⟩
    (by norm_num) (by norm_num) (by norm_num) (by norm_num)

/-- A scan that never sees the pattern leaves the string unchanged. -/
theorem replaceAllFuel_no_occurrence (pat rep : Str) (fuel : Nat) :
    ∀ s : Str, occursIn pat s = false → replaceAllFuel pat rep fuel s = s := by
  induction fuel with
  | zero => intro s _; rfl
  | succ f ih =>
      intro s h
      match s with
      | [] => rfl
      | c :: rest =>
          simp only [occursIn, Bool.or_eq_false_iff] at h
          rw [replaceAllFuel, if_neg (fun hc => by
            rw [hc.2] at h
            exact Bool.true_eq_false.mp h.1)]
          rw [ih rest h.2]

/-- A list is a Boolean prefix of itself followed by anything. -/
theorem isPrefixOf_append_self (l t : List Char) :
    l.isPrefixOf (l ++ t) = true := by
  induction l with
  | nil => simp [List.isPrefixOf]
  | cons c cs ih => simp [List.isPrefixOf, ih]

/-- Python replace of a non-empty pattern on `pat ++ k` removes the leading
occurrence and leaves a pattern-free `k` untouched. -/
theorem replaceAllFuel_strip (pat k : Str) (hpat : pat ≠ [])
    (hk : occursIn pat k = false) (fuel : Nat) :
    replaceAllFuel pat [] (fuel + 1) (pat ++ k) = k := by
  match pat, hpat with
  | p :: pr, _ =>
      show replaceAllFuel (p :: pr) [] (fuel + 1) (p :: (pr ++ k)) = k
      rw [replaceAllFuel, if_pos ⟨List.cons_ne_nil p pr,
        isPrefixOf_append_self (p :: pr) k⟩]
      have hdrop : (pr ++ k).drop ((p :: pr).length - 1) = k := by
        simp [List.drop_left pr k]
      rw [hdrop, List.nil_append]
      exact replaceAllFuel_no_occurrence (p :: pr) [] fuel k hk

/-- `replaceAll` at its call-site fuel strips exactly the leading
namespace occurrence. -/
theorem replaceAll_strip (pat k : Str) (hpat : pat ≠ [])
    (hk : occursIn pat k = false) :
    replaceAll pat [] (pat ++ k) = k := by
  unfold replaceAll
  have hlen : (pat ++ k).length = (pat.length - 1 + k.length) + 1 := by
    cases pat
    · exact absurd rfl hpat
    · simp only [List.length_append, List.length_cons]
      omega
  rw [hlen]
  exact replaceAllFuel_strip pat k hpat hk _

/-- Decoding inverts encoding when no metadata key contains the reserved
namespace string as a substring. -/
theorem decode_encode_metaLabels (tstr : Str) (metadata : List (Str × Str))
    (hk : ∀ kv ∈ metadata, occursIn metaNs kv.1 = false) :
    decodeMetaLabels (encodeMetaLabels tstr metadata) = metadata := by
  unfold decodeMetaLabels encodeMetaLabels baseLabels
  rw [List.filter_append]
  have hb1 : (metaNs.isPrefixOf "kortix.sandbox".data) = false := by decide
  have hb2 : (metaNs.isPrefixOf "kortix.created_at".data) = false := by decide
  simp only [List.filter_cons, hb1, hb2, Bool.false_eq_true, if_false,
    List.filter_nil, List.nil_append]
  rw [List.filter_map, List.map_map]
  have hall : List.filter
      ((fun kv => metaNs.isPrefixOf kv.1) ∘ fun kv => (metaNs ++ kv.1, kv.2))
      metadata = metadata :=
    List.filter_eq_self.mpr (fun kv _ => isPrefixOf_append_self metaNs kv.1)
  rw [hall]
  have hpt : ∀ kv ∈ metadata,
      ((fun kv => (replaceAll metaNs [] kv.1, kv.2)) ∘
        fun kv => (metaNs ++ kv.1, kv.2)) kv = id kv := by
    intro kv hkv
    simp only [Function.comp_apply, id_eq]
    rw [replaceAll_strip metaNs kv.1 (by decide) (hk kv hkv)]
  rw [List.map_congr_left hpt, List.map_id]

/-- C6 fails as stated: for the metadata map `{"xkortix.meta.y": "v"}` the
label key round trip is not the identity — the decode step uses Python
`str.replace`, which removes every occurrence of `"kortix.meta."`, so the
key decodes to `"xy"` and the resulting metadata differs from the map that
was supplied to `create_sandbox`. -/
theorem C6_metadata_counterexample :
    decodeMetaLabels (encodeMetaLabels "0".data
        [("xkortix.meta.y".data, "v".data)]) =
      [("xy".data, "v".data)] ∧
    ([(("xy".data : Str), ("v".data : Str))] :
        List (Str × Str)) ≠ [("xkortix.meta.y".data, "v".data)] :=
  ⟨by decide, by decide⟩

/-- C6 (amended): for every metadata map whose keys do not contain the
reserved namespace string `"kortix.meta."` as a substring (values being
strings), encoding into labels on `create_sandbox` and decoding the labels
back on `get_sandbox` of the returned sandbox id yields a metadata map
equal to the one supplied. -/
theorem C6_metadata_roundtrip (tstr : Str) (metadata : List (Str × Str))
    (eng : Engine) (newId : String)
    (hk : ∀ kv ∈ metadata, occursIn metaNs kv.1 = false) :
    ∃ eng2 info,
      create_sandbox true eng newId tstr metadata = Except.ok (eng2, info) ∧
      info.metadata = metadata ∧
      get_sandbox true eng2 newId =
        Except.ok ⟨newId, mapDockerStatus "running", metadata⟩ := by
  refine ⟨_, _, rfl, rfl, ?_⟩
  have hdec := decode_encode_metaLabels tstr metadata hk
  simp [get_sandbox, List.lookup_cons, hdec]

/-- Witness for the amended C6 at the metadata map `{"user": "alice"}`. -/
theorem C6_metadata_roundtrip_witness :
    occursIn metaNs "user".data = false ∧
    ∃ eng2 info,
      create_sandbox true [] "c1" "17".data [("user".data, "alice".data)] =
        Except.ok (eng2, info) ∧
      info.metadata = [("user".data, "alice".data)] ∧
      get_sandbox true eng2 "c1" =
        Except.ok ⟨"c1", mapDockerStatus "running",
          [("user".data, "alice".data)]⟩ :=
  ⟨by decide,
   C6_metadata_roundtrip "17".data [("user".data, "alice".data)] [] "c1"
     (by decide)⟩

/-- A fixed-width field always has its nominal width. -/
theorem length_padTo (n : Nat) (l : List Nat) : (padTo n l).length = n := by
  simp [padTo]
  omega

/-- An octal numeric field has its nominal width. -/
theorem length_octFixed (w n : Nat) : (octFixed w n).length = w := by
  induction w generalizing n with
  | zero => rfl
  | succ v ih => simp [octFixed, ih]

/-- The pre-checksum header fields span offsets 0..147. -/
theorem length_headerPre (name : String) (mode mtime size : Nat) :
    (headerPre name mode mtime size).length = 148 := by
  simp [headerPre, length_padTo, length_octFixed]

/-- The post-checksum header tail spans offsets 156..511. -/
theorem length_headerPost : headerPost.length = 356 := by
  simp only [headerPost, List.length_cons, List.length_replicate]

/-- A tar header is one 512-byte block. -/
theorem length_mkHeader (name : String) (mode mtime size : Nat) :
    (mkHeader name mode mtime size).length = 512 := by
  simp [mkHeader, length_headerPre, length_octFixed, length_headerPost]

/-- Folding the octal digits of `n` (with any accumulator) recovers `n`. -/
theorem foldOct_octFixed (w : Nat) :
    ∀ n a : Nat, n < 8 ^ w →
      List.foldl (fun acc d => acc * 8 + (d - 48)) a (octFixed w n) =
        a * 8 ^ w + n := by
  induction w with
  | zero =>
      intro n a hn
      have hn0 : n = 0 := by simpa using hn
      subst hn0
      simp [octFixed]
  | succ v ih =>
      intro n a hn
      have hdiv : n / 8 < 8 ^ v := by
        rw [Nat.div_lt_iff_lt_mul (by norm_num : (0:Nat) < 8)]
        calc n < 8 ^ (v + 1) := hn
        _ = 8 ^ v * 8 := by rw [pow_succ]
      rw [octFixed, List.foldl_append, ih (n / 8) a hdiv]
      simp only [List.foldl_cons, List.foldl_nil]
      have h48 : 48 + n % 8 - 48 = n % 8 := by omega
      rw [h48]
      calc (a * 8 ^ v + n / 8) * 8 + n % 8
          = a * (8 ^ v * 8) + (8 * (n / 8) + n % 8) := by ring
        _ = a * 8 ^ (v + 1) + n := by rw [Nat.div_add_mod, pow_succ]

/-- Reading back the fixed-width octal encoding of `n`. -/
theorem parseOct_octFixed (w n : Nat) (h : n < 8 ^ w) :
    parseOct (octFixed w n) = n := by
  unfold parseOct
  rw [foldOct_octFixed w n 0 h]
  simp

/-- `takeWhile` up to the zero padding recovers a zero-free field. -/
theorem takeWhile_append_zeros (l : List Nat) (k : Nat)
    (h : ∀ b ∈ l, b ≠ 0) :
    (l ++ List.replicate k 0).takeWhile (fun b => b != 0) = l := by
  induction l with
  | nil =>
      cases k with
      | zero => rfl
      | succ j => simp [List.replicate_succ]
  | cons b rest ih =>
      have hb : (b != 0) = true := by
        simpa [bne_iff_ne] using h b (List.mem_cons_self b rest)
      simp only [List.cons_append, List.takeWhile_cons, hb, if_true]
      rw [ih (fun x hx => h x (List.mem_cons_of_mem b hx))]

/-- Taking exactly the first block of an append. -/
theorem take_append_len (n : Nat) (l1 l2 : List Nat) (h : l1.length = n) :
    (l1 ++ l2).take n = l1 := by
  subst h
  exact List.take_left l1 l2

/-- Dropping through a block of known length. -/
theorem drop_append_len (n i : Nat) (l1 l2 : List Nat) (h : l1.length = n) :
    (l1 ++ l2).drop (n + i) = l2.drop i := by
  subst h
  exact List.drop_append i

/-- Reading the single-entry archive built by `write_file` recovers the
member name bytes and the exact payload. -/
theorem tarFirstEntry_mkTarSingle (name : String) (mode mtime : Nat)
    (content : List Nat) (hsize : content.length < 8 ^ 11)
    (hname : ∀ c ∈ name.data, c.toNat ≠ 0)
    (hblen : name.data.length ≤ 100) :
    tarFirstEntry (mkTarSingle name mode mtime content) =
      some (strBytes name, content) := by
  have hlenSB : (strBytes name).length ≤ 100 := by
    simpa [strBytes] using hblen
  have hput : mkTarSingle name mode mtime content =
      mkHeader name mode mtime content.length ++
        (padTo (512 * ((content.length + 511) / 512)) content ++
          List.replicate 1024 0) := by
    simp only [mkTarSingle, List.append_assoc]
  have hform : mkTarSingle name mode mtime content =
      padTo 100 (strBytes name) ++
      (octFixed 7 mode ++ ([0] ++
        (octFixed 7 0 ++ ([0] ++
          (octFixed 7 0 ++ ([0] ++
            (octFixed 11 content.length ++ ([0] ++
              (octFixed 11 mtime ++ ([0] ++
                (octFixed 6
                    (chksumOf (headerPre name mode mtime content.length)) ++
                  ([0, 32] ++
                    (headerPost ++
                      (padTo (512 * ((content.length + 511) / 512)) content ++
                        List.replicate 1024 0)))))))))))))) := by
    simp only [mkTarSingle, mkHeader, headerPre, List.append_assoc]
  -- total length
  have hlen : ¬((mkTarSingle name mode mtime content).length < 512) := by
    rw [hput]
    simp only [List.length_append, length_mkHeader]
    omega
  -- the header block is not all zeros (the checksum field ends in a space)
  have htake512 : (mkTarSingle name mode mtime content).take 512 =
      mkHeader name mode mtime content.length := by
    rw [hput]
    exact take_append_len 512 _ _ (length_mkHeader name mode mtime _)
  have hmem32 : (32 : Nat) ∈ mkHeader name mode mtime content.length := by
    simp [mkHeader, List.mem_append]
  have hall : ((mkTarSingle name mode mtime content).take 512).all
      (fun b => b == 0) = false := by
    rw [htake512]
    refine Bool.eq_false_iff.mpr (fun hcontra => ?_)
    have h32 := List.all_eq_true.mp hcontra 32 hmem32
    simp at h32
  -- the name field
  have hpadA : padTo 100 (strBytes name) =
      strBytes name ++ List.replicate (100 - (strBytes name).length) 0 := by
    unfold padTo
    rw [List.take_of_length_le hlenSB]
  have hnz : ∀ b ∈ strBytes name, b ≠ 0 := by
    intro b hb
    obtain ⟨c, hc, rfl⟩ := List.mem_map.mp hb
    exact hname c hc
  have hnameField : ((mkTarSingle name mode mtime content).take 100).takeWhile
      (fun b => b != 0) = strBytes name := by
    rw [hform, take_append_len 100 _ _ (length_padTo 100 _), hpadA]
    exact takeWhile_append_zeros _ _ hnz
  -- the size field
  have hsizeField : ((mkTarSingle name mode mtime content).drop 124).take 11 =
      octFixed 11 content.length := by
    rw [hform]
    rw [show (124 : Nat) = 100 + 24 from rfl,
      drop_append_len 100 24 _ _ (length_padTo 100 _)]
    rw [show (24 : Nat) = 7 + 17 from rfl,
      drop_append_len 7 17 _ _ (length_octFixed 7 mode)]
    rw [show (17 : Nat) = 1 + 16 from rfl,
      drop_append_len 1 16 [0] _ rfl]
    rw [show (16 : Nat) = 7 + 9 from rfl,
      drop_append_len 7 9 _ _ (length_octFixed 7 0)]
    rw [show (9 : Nat) = 1 + 8 from rfl,
      drop_append_len 1 8 [0] _ rfl]
    rw [show (8 : Nat) = 7 + 1 from rfl,
      drop_append_len 7 1 _ _ (length_octFixed 7 0)]
    rw [show (1 : Nat) = 1 + 0 from rfl,
      drop_append_len 1 0 [0] _ rfl]
    rw [List.drop_zero]
    exact take_append_len 11 _ _ (length_octFixed 11 _)
  -- the payload
  have hpadlen : content.length ≤ 512 * ((content.length + 511) / 512) := by
    have hdm := Nat.div_add_mod (content.length + 511) 512
    have hmod : (content.length + 511) % 512 < 512 :=
      Nat.mod_lt _ (by norm_num)
    omega
  have hpadC : padTo (512 * ((content.length + 511) / 512)) content =
      content ++ List.replicate
        (512 * ((content.length + 511) / 512) - content.length) 0 := by
    unfold padTo
    rw [List.take_of_length_le hpadlen]
  have hpayload : ((mkTarSingle name mode mtime content).drop 512).take
      content.length = content := by
    rw [hput]
    rw [show (512 : Nat) = 512 + 0 from rfl,
      drop_append_len 512 0 _ _ (length_mkHeader name mode mtime _),
      List.drop_zero, hpadC, List.append_assoc]
    exact take_append_len content.length _ _ rfl
  -- assemble
  unfold tarFirstEntry
  rw [if_neg hlen, if_neg (by rw [hall]; exact Bool.false_ne_true)]
  rw [hnameField, hsizeField, parseOct_octFixed 11 content.length hsize]
  show some (strBytes name, List.take content.length
    (List.drop 512 (mkTarSingle name mode mtime content))) =
      some (strBytes name, content)
  rw [hpayload]


/-- Unfolding equation for `read_file` on an initialized client. -/
theorem read_file_eq (fs : ContainerFs) (path : String) :
    read_file true fs path =
      match engineGetArchive fs path with
      | none => Except.error s!"File not found: {path}"
      | some data =>
          match tarFirstEntry data with
          | some entry => Except.ok entry.2
          | none => Except.error s!"File not found: {path}" := rfl

/-- `read_file` returns the first member's payload once the engine hands
back an archive whose first member is known. -/
theorem read_of_get (fs : ContainerFs) (p : String) (data : List Nat)
    (hget : engineGetArchive fs p = some data)
    (entry : List Nat × List Nat)
    (hfirst : tarFirstEntry data = some entry) :
    read_file true fs p = Except.ok entry.2 := by
  rw [read_file_eq, hget]
  show (match tarFirstEntry data with
    | some entry => Except.ok entry.2
    | none => (Except.error s!"File not found: {p}" :
        Except String (List Nat))) = Except.ok entry.2
  rw [hfirst]

/-- C2: for every byte string (including non-UTF8 byte values) written with
`write_file` — which packs the content into a single-entry tar archive
streamed into the directory of `path` — reading the same path back with
`read_file` — which extracts the first entry of a tar archive fetched from
`path` — returns exactly the written bytes.  The path hypotheses say that
`path` splits as `dirname ++ "/" ++ basename` with a NUL-free basename of
at most 100 bytes (the tar name field), as every ordinary absolute file
path does; the size hypothesis is the 11-octal-digit capacity of the tar
size field (8 GiB). -/
theorem C2_write_read_roundtrip (fs : ContainerFs) (path : String)
    (content : List Nat) (mode mtime : Nat)
    (hsize : content.length < 8 ^ 11)
    (hname : ∀ c ∈ (pyBasename path).data, c.toNat ≠ 0)
    (hblen : (pyBasename path).data.length ≤ 100)
    (hdir : pyDirname path ≠ "")
    (hjoin : strBytes (pyDirname path) ++ 47 :: strBytes (pyBasename path) =
      strBytes path) :
    ∃ fs2, write_file true fs path content mode mtime = Except.ok fs2 ∧
      read_file true fs2 path = Except.ok content := by
  have h1 := tarFirstEntry_mkTarSingle (pyBasename path) mode mtime content
    hsize hname hblen
  have h2 := tarFirstEntry_mkTarSingle (pyBasename path) 420 0 content
    hsize hname hblen
  refine ⟨_, rfl, ?_⟩
  show read_file true (enginePutArchive fs
      (if pyDirname path = "" then "/" else pyDirname path)
      (mkTarSingle (pyBasename path) mode mtime content)) path =
    Except.ok content
  rw [if_neg hdir]
  unfold enginePutArchive
  rw [h1]
  show read_file true
      ((strBytes (pyDirname path) ++ 47 :: strBytes (pyBasename path),
        content) :: fs) path = Except.ok content
  rw [hjoin]
  have hlook : (((strBytes path, content) :: fs).lookup (strBytes path)) =
      some content := by
    rw [List.lookup_cons]
    simp
  have hget : engineGetArchive ((strBytes path, content) :: fs) path =
      some (mkTarSingle (pyBasename path) 420 0 content) := by
    unfold engineGetArchive
    rw [hlook]
    rfl
  exact read_of_get _ _ _ hget _ h2

/-- Witness for C2: write then read `/workspace/test.txt` with the payload
bytes of `b"hello"` on an empty container filesystem. -/
theorem C2_write_read_roundtrip_witness :
    pyDirname "/workspace/test.txt" ≠ "" ∧
    strBytes (pyDirname "/workspace/test.txt") ++
        47 :: strBytes (pyBasename "/workspace/test.txt") =
      strBytes "/workspace/test.txt" ∧
    ∃ fs2, write_file true [] "/workspace/test.txt"
        [104, 101, 108, 108, 111] 420 99 = Except.ok fs2 ∧
      read_file true fs2 "/workspace/test.txt" =
        Except.ok [104, 101, 108, 108, 111] :=
  ⟨by decide, by decide,
   C2_write_read_roundtrip [] "/workspace/test.txt"
     [104, 101, 108, 108, 111] 420 99 (by norm_num) (by decide) (by decide)
     (by decide) (by decide)⟩
